import Mathlib

/-!
Shallow embedding of
`tensorflow/compiler/xla/service/gpu/cudnn_convolution_algorithm_picker.cc`.

The pure data and control flow of the file is translated into executable
Lean definitions; the external collaborators (the cuDNN convolution runner,
the device memory allocator, the buffer comparator) are passed in as oracle
parameters, exactly at the interfaces the C++ code calls them.
-/

namespace XlaGpu

/-- XLA element types used by this pass (`xla::PrimitiveType`, restricted to
the constructors this file touches). -/
inductive PrimitiveType
  | F16
  | F32
  | F64
  | U8
deriving DecidableEq

/-! ## ScratchAllocator (cudnn_convolution_algorithm_picker.cc:37-76) -/

/-- The mutable state of a `ScratchAllocator` object: the owned buffer list
`allocated_buffers_` (each buffer represented by its byte size) and the
running total `total_allocated_bytes_`. -/
structure ScratchState where
  allocated_buffers : List Int
  total_allocated_bytes : Int
deriving DecidableEq

/-- Source `ScratchAllocator::GetMemoryLimitInBytes`: `1LL << 32` (4 GiB). -/
def memoryLimitInBytes : Int := 2 ^ 32

/-- Errors `ScratchAllocator::AllocateBytes` can return: the
RESOURCE_EXHAUSTED status (carrying the requested size and the limit, as the
C++ message string does), or a failure of the injected
`DeviceMemoryAllocator`. -/
inductive AllocError
  | resourceExhausted (requested : Int) (limit : Int)
  | memoryAllocatorFailed
deriving DecidableEq

/-- Source `ScratchAllocator::AllocateBytes` (lines 57-76), as a state transformer
on the allocator object's fields.  `memAllocOk b` is the oracle for whether
`memory_allocator_->Allocate(device_ordinal_, b, /*retry_on_failure=*/false)`
succeeds.  The C++ `CHECK_GE(byte_size, 0)` aborts the process on negative
sizes; theorems about returns therefore assume `0 ≤ byte_size`.  On an early
error return the object's fields are untouched; on success the total grows by
`byte_size` and the buffer is pushed onto the owned list. -/
def allocateBytes (memAllocOk : Int → Bool) (byte_size : Int)
    (st : ScratchState) : ScratchState × Except AllocError Int :=
  if byte_size > memoryLimitInBytes then
    (st, .error (.resourceExhausted byte_size memoryLimitInBytes))
  else if memAllocOk byte_size then
    ({ allocated_buffers := st.allocated_buffers ++ [byte_size],
       total_allocated_bytes := st.total_allocated_bytes + byte_size },
     .ok byte_size)
  else
    (st, .error .memoryAllocatorFailed)

/-! ## ShouldIncludeWinogradNonfusedAlgo (lines 81-106) -/

/-- Source `xla::Shape`, restricted to what this file reads: the element type and
the per-dimension extents (`int64` extents of a shape are non-negative, so
they are carried as `Nat`). -/
structure Shape where
  element_type : PrimitiveType
  dimensions : List Nat
deriving DecidableEq

/-- Source `xla::ConvolutionDimensionNumbers`, restricted to the fields this file
reads. -/
structure ConvolutionDimensionNumbers where
  input_batch_dimension : Nat
  input_feature_dimension : Nat
  input_spatial_dimensions : List Nat
  output_feature_dimension : Nat
deriving DecidableEq

/-- Two's-complement reading of a 64-bit residue: the value the `uint64`
result of the wrapped multiply takes after conversion back to `int64`. -/
def toInt64 (n : Nat) : Int :=
  if n % 2 ^ 64 < 2 ^ 63 then ((n % 2 ^ 64 : Nat) : Int)
  else ((n % 2 ^ 64 : Nat) : Int) - 2 ^ 64

/-- The exact (unbounded) value of the product the source multiplies at
lines 100-102, in the source's factor order:
`CeilOfRatio(batch, 16) * max(in_depths, out_depths) * in_cols * in_rows *
sizeof(float)`.  `CeilOfRatio(a, 16)` on non-negative `int64` is
`(a + 15) / 16`. -/
def winogradCodeTotalSize (input_shape output_shape : Shape)
    (dnums : ConvolutionDimensionNumbers) : Nat :=
  let batch := input_shape.dimensions.getD dnums.input_batch_dimension 0
  let in_depths := input_shape.dimensions.getD dnums.input_feature_dimension 0
  let in_rows :=
    input_shape.dimensions.getD (dnums.input_spatial_dimensions.getD 0 0) 0
  let in_cols :=
    if dnums.input_spatial_dimensions.length = 1 then 1
    else input_shape.dimensions.getD (dnums.input_spatial_dimensions.getD 1 0) 0
  let out_depths :=
    output_shape.dimensions.getD dnums.output_feature_dimension 0
  (batch + 15) / 16 * max in_depths out_depths * in_cols * in_rows * 4

/-- The shape-based size check in the `else` path of
`ShouldIncludeWinogradNonfusedAlgo` (lines 91-105): the computed
`total_size` must stay strictly below `1L << 31`.  The computation is 64-bit,
not exact: the four `int64` factors multiply as signed 64-bit integers
(overflow there is undefined behaviour and outside the model; on every
shape this development evaluates, their product stays below `2^63`), the
final multiply by `sizeof(float)` (a `size_t`) is performed in `uint64` and
wraps modulo `2^64`, and the result converts back to `int64`
(two's complement) for the signed comparison against the threshold — so the
`total_size` that is compared is `toInt64` of the exact product. -/
def winogradShapeOk (input_shape output_shape : Shape)
    (dnums : ConvolutionDimensionNumbers) : Bool :=
  toInt64 (winogradCodeTotalSize input_shape output_shape dnums) < 2 ^ 31

/-- Source `ShouldIncludeWinogradNonfusedAlgo` (lines 81-106).  The result of
`stream_exec->AsDnn()->GetVersion()` is passed as `version`: `some v` when the
query succeeded with major version `v`, `none` when it failed (`!ok()`).
The code returns `true` immediately only when the query succeeded *and* the
major version is at least 7; in every other case (including a failed query) it
falls through to the shape-based size check. -/
def shouldIncludeWinogradNonfusedAlgo (version : Option Nat)
    (input_shape output_shape : Shape)
    (dnums : ConvolutionDimensionNumbers) : Bool :=
  if (match version with | some v => decide (v ≥ 7) | none => false) then true
  else winogradShapeOk input_shape output_shape dnums

/-- The Winograd-inclusion policy exactly as the claim/spec words it
("if the installed library major version is ≥ 7, always eligible; otherwise
compute `total_size = ceil(batch / 16) * max(input_channels, output_channels)
* spatial_rows * spatial_cols * sizeof(float32)`; eligible iff
`total_size < 2^31`", with `spatial_cols` taken as 1 when there is a single
spatial dimension).  Written independently of the source function, to be
compared with it. -/
def winogradEligibleSpec (version : Option Nat)
    (input_shape output_shape : Shape)
    (dnums : ConvolutionDimensionNumbers) : Bool :=
  let batch := input_shape.dimensions.getD dnums.input_batch_dimension 0
  let input_channels :=
    input_shape.dimensions.getD dnums.input_feature_dimension 0
  let output_channels :=
    output_shape.dimensions.getD dnums.output_feature_dimension 0
  let spatial_rows :=
    input_shape.dimensions.getD (dnums.input_spatial_dimensions.getD 0 0) 0
  let spatial_cols :=
    if dnums.input_spatial_dimensions.length = 1 then 1
    else input_shape.dimensions.getD (dnums.input_spatial_dimensions.getD 1 0) 0
  let total_size :=
    (batch + 16 - 1) / 16 * max input_channels output_channels
      * spatial_rows * spatial_cols * 4
  match version with
  | some v => if v ≥ 7 then true else total_size < 2 ^ 31
  | none => total_size < 2 ^ 31

/-- The exact (unbounded) value of the claim's `total_size` formula, in the
claim's order of factors: `ceil(batch/16) * max(input_channels,
output_channels) * spatial_rows * spatial_cols * sizeof(float32)`, with
`spatial_cols = 1` for a single spatial dimension. -/
def winogradExactTotalSize (input_shape output_shape : Shape)
    (dnums : ConvolutionDimensionNumbers) : Nat :=
  let batch := input_shape.dimensions.getD dnums.input_batch_dimension 0
  let input_channels :=
    input_shape.dimensions.getD dnums.input_feature_dimension 0
  let output_channels :=
    output_shape.dimensions.getD dnums.output_feature_dimension 0
  let spatial_rows :=
    input_shape.dimensions.getD (dnums.input_spatial_dimensions.getD 0 0) 0
  let spatial_cols :=
    if dnums.input_spatial_dimensions.length = 1 then 1
    else input_shape.dimensions.getD (dnums.input_spatial_dimensions.getD 1 0) 0
  (batch + 15) / 16 * max input_channels output_channels
    * spatial_rows * spatial_cols * 4

/-- The claim's policy amended to the source's 64-bit arithmetic: identical
to `winogradEligibleSpec` except that `total_size` is the claim's product
with the final multiply wrapping modulo `2^64` and the result read back as a
signed 64-bit value (`toInt64`), as the source computes it. -/
def winogradEligibleSpec64 (version : Option Nat)
    (input_shape output_shape : Shape)
    (dnums : ConvolutionDimensionNumbers) : Bool :=
  let total_size :=
    toInt64 (winogradExactTotalSize input_shape output_shape dnums)
  match version with
  | some v => if v ≥ 7 then true else total_size < 2 ^ 31
  | none => total_size < 2 ^ 31

/-! ## HLO-side data model (shapes, the convolution custom call) -/

/-- The slice of `xla::Shape` the rewriter manipulates: array shapes with an
element type and `int64` extents, and the 2-tuples built at lines 418-420
and 438-443. -/
inductive XShape
  | arr (ty : PrimitiveType) (dims : List Int)
  | tuple2 (fst snd : XShape)
deriving DecidableEq

/-- Projection `shape.tuple_shapes(0)` for the 2-tuples this pass builds and reads; on a
non-tuple shape (which the pass never queries) the shape itself is returned. -/
def tupleShapes0 : XShape → XShape
  | .tuple2 a _ => a
  | s => s

/-- The three cuDNN convolution custom-call targets this pass recognizes
(`kCudnnConvForwardCallTarget`, `kCudnnConvBackwardInputCallTarget`,
`kCudnnConvBackwardFilterCallTarget`); any other target hits `LOG(FATAL)`. -/
inductive CallTarget
  | convForward
  | convBackwardInput
  | convBackwardFilter
deriving DecidableEq

/-- Source `xla::Window`, opaque to this pass: it is only copied verbatim onto the
replacement call, so it is modelled as an abstract token. -/
structure Window where
  data : Nat
deriving DecidableEq

/-- The `CudnnConvBackendConfig` proto fields this pass writes
(lines 422-424). -/
structure CudnnConvBackendConfig where
  algorithm : Int
  tensor_ops_enabled : Bool
deriving DecidableEq

/-- A cuDNN-convolution `HloCustomCallInstruction`, restricted to the fields
`RunOnInstruction` reads and writes: the call target, the two operand shapes,
the (tuple) result shape, the window and dimension numbers, and the backend
configuration payload (absent before the pass runs). -/
structure ConvCustomCall where
  call_target : CallTarget
  operand0_shape : XShape
  operand1_shape : XShape
  shape : XShape
  window : Window
  convolution_dimension_numbers : ConvolutionDimensionNumbers
  backend_config : Option CudnnConvBackendConfig
deriving DecidableEq

/-! ## The benchmark loop of PickBestAlgorithm (lines 177-366) -/

/-- Source `se::dnn::AlgorithmDesc`: an algorithm id plus the tensor-op flag;
identity is by the pair. -/
structure AlgorithmDesc where
  algo_id : Int
  tensor_ops_enabled : Bool
deriving DecidableEq

/-- Outcome of `comparator->CompareEqual(...)` on one trial's result buffer:
the call failed (`!result.ok()`), reported equality, or reported a
mismatch. -/
inductive CompareOutcome
  | compareError
  | equal
  | unequal
deriving DecidableEq

/-- The externally produced data of one candidate trial, i.e. everything the
loop body at lines 285-351 observes from its collaborators for one
algorithm: whether `RunCudnnConvolution` returned ok (`launch_ok`), the
profile's validity flag and elapsed time (modelled from the spec:
"ProfileResult: validity flag, elapsed time (monotonic, comparable,
lower-is-better)"; the millisecond float is carried as a rational), the
trial allocator's `TotalAllocatedBytes()` after the run, whether
`F16BufferComparator::Create` on this trial's result buffer would succeed,
and what `CompareEqual` against the reference would report. -/
structure TrialOutcome where
  launch_ok : Bool
  profile_valid : Bool
  elapsed_time_in_ms : Rat
  scratch_bytes : Int
  comp_create_ok : Bool
  compare_eq : CompareOutcome
deriving DecidableEq

/-- The guard at line 299: `launch_ok && profile_result.is_valid()`. -/
def validTrial (t : TrialOutcome) : Bool :=
  t.launch_ok && t.profile_valid

/-- The loop-carried state of the candidate loop: the running best
(`best_result` + `best_result_bytes_used`; `none` models the
default-constructed, invalid `ProfileResult`, which any valid trial's time
beats — modelled from the spec: "first valid trial always becomes best"),
and the comparator/`first_algorithm` pair (`none` before a reference is
established). -/
structure LoopState where
  best : Option (AlgorithmDesc × Rat × Int)
  comparator : Option AlgorithmDesc
deriving DecidableEq

/-- How `PickBestAlgorithm` can fail to return a tuple: a
`CHECK(!crash_on_checking_failure)` fired during cross-checking (a fatal
abort of the whole picking call), or the final "All algorithms tried for
convolution %s failed" `InternalError`, which carries the instruction. -/
inductive PickError
  | checkFailed
  | allFailed (instr : ConvCustomCall)
deriving DecidableEq

/-- The cross-check block at lines 299-335, for one valid trial.
`cross_check_enabled` is the flag from line 186, `crash` is
`xla_gpu_crash_on_verification_failures`.  With a comparator already
established, `CompareEqual` is consulted: an error or a reported mismatch is
logged and `CHECK(!crash)` fires iff `crash` is set.  With no comparator yet
and cross-checking enabled, `F16BufferComparator::Create` is attempted: on
success this trial's algorithm becomes the reference (`first_algorithm`); on
failure the error is logged and `CHECK(!crash)` fires iff `crash` is set. -/
def checkStep (cross_check_enabled crash : Bool) (st : LoopState)
    (alg : AlgorithmDesc) (t : TrialOutcome) : Except PickError LoopState :=
  match st.comparator with
  | some _ =>
    match t.compare_eq with
    | .compareError => if crash then .error .checkFailed else .ok st
    | .equal => .ok st
    | .unequal => if crash then .error .checkFailed else .ok st
  | none =>
    if cross_check_enabled then
      if t.comp_create_ok then .ok { st with comparator := some alg }
      else if crash then .error .checkFailed else .ok st
    else .ok st

/-- The running-best update at lines 343-347: replace the best iff this
trial's elapsed time is strictly below the current best's
(`profile_result.elapsed_time_in_ms() < best_result.elapsed_time_in_ms()`;
an absent best — the default-constructed invalid `ProfileResult` — is always
replaced). -/
def bestUpdate (p : AlgorithmDesc × TrialOutcome) (st1 : LoopState) :
    LoopState :=
  match st1.best with
  | none =>
    { st1 with best := some (p.1, p.2.elapsed_time_in_ms, p.2.scratch_bytes) }
  | some (_, best_time, _) =>
    if p.2.elapsed_time_in_ms < best_time then
      { st1 with best := some (p.1, p.2.elapsed_time_in_ms, p.2.scratch_bytes) }
    else st1

/-- One iteration of the candidate loop (lines 285-351): an unsuccessful run
(`!launch_ok || !profile_result.is_valid()`) only logs and leaves the state
unchanged; a valid trial goes through the cross-check block and then the
running-best update. -/
def trialStep (cross_check_enabled crash : Bool) (st : LoopState)
    (p : AlgorithmDesc × TrialOutcome) : Except PickError LoopState :=
  if validTrial p.2 then
    match checkStep cross_check_enabled crash st p.1 p.2 with
    | .error e => .error e
    | .ok st1 => .ok (bestUpdate p st1)
  else .ok st

/-- The candidate loop: `trialStep` folded over the enumerated algorithms
paired with their trial outcomes; a fatal `CHECK` aborts the loop. -/
def runTrials (cross_check_enabled crash : Bool) (st : LoopState) :
    List (AlgorithmDesc × TrialOutcome) → Except PickError LoopState
  | [] => .ok st
  | p :: rest =>
    match trialStep cross_check_enabled crash st p with
    | .error e => .error e
    | .ok st' => runTrials cross_check_enabled crash st' rest

/-- Source `CudnnConvolutionAlgorithmPicker::PickBestAlgorithm`, selection phase
(lines 177-366).  `element_type` is the (checked-equal) element type of the
three shapes, so `cross_check_enabled := element_type == F16` (line 186);
`crash` is the `xla_gpu_crash_on_verification_failures` debug option;
`trials` pairs each enumerated `AlgorithmDesc` (in enumeration order) with
the externally observed outcome of its trial.  After the loop, a valid best
yields `(algo_id, tensor_ops_enabled, best_result_bytes_used)`
(lines 352-359); otherwise the "all algorithms failed" error identifying the
instruction is returned (lines 362-365). -/
def pickBestAlgorithm (element_type : PrimitiveType) (crash : Bool)
    (instr : ConvCustomCall) (trials : List (AlgorithmDesc × TrialOutcome)) :
    Except PickError (Int × Bool × Int) :=
  match runTrials (decide (element_type = PrimitiveType.F16)) crash
      { best := none, comparator := none } trials with
  | .error e => .error e
  | .ok st =>
    match st.best with
    | some (alg, _, bytes_used) =>
      .ok (alg.algo_id, alg.tensor_ops_enabled, bytes_used)
    | none => .error (.allFailed instr)

/-! ## result_buf selection (lines 264-273) -/

/-- Source `CudnnConvKind`. -/
inductive CudnnConvKind
  | kForward
  | kBackwardInput
  | kBackwardFilter
deriving DecidableEq

/-- The `result_buf` lambda at lines 264-273: which of the three operand
buffers is the result buffer, purely by convolution kind. -/
def result_buf {α : Type} (kind : CudnnConvKind)
    (input_buf filter_buf output_buf : α) : α :=
  match kind with
  | .kBackwardFilter => filter_buf
  | .kBackwardInput => input_buf
  | .kForward => output_buf

/-! ## Buffer setup before the trials (lines 216-286) -/

/-- The three operand buffers of a picking call. -/
inductive BufferRole
  | inputBuf
  | filterBuf
  | outputBuf
deriving DecidableEq

/-- How a buffer's contents are written before the trials: the
`initialize_f16` lambda (lines 231-249) broadcasts one 16-bit pattern over
the whole buffer (`ThenMemset32` with the pattern doubled, plus a trailing
`ThenMemcpy` of one half for the unaligned tail), and the zero path
(lines 258-260) is `ThenMemZero`. -/
inductive InitKind
  | broadcastF16 (halfBits : Nat)
  | memZero
deriving DecidableEq

/-- The bit pattern of `Eigen::half(0.1f)` (the
`kBroadcastedConstant = 0.1f` of line 236 converted to IEEE-754 binary16):
sign 0, exponent −4 (biased `01011`), mantissa `1001100110`, i.e. `0x2E66`.
The one fact the development relies on is that it is a fixed non-zero
pattern. -/
def halfBits01 : Nat := 0x2E66

/-- The contents a buffer of `n` 16-bit units holds after the corresponding
initialization operations complete: a constant non-zero fill for the F16
broadcast, zeros for `ThenMemZero`. -/
def initContents : InitKind → Nat → List Nat
  | .broadcastF16 bits, n => List.replicate n bits
  | .memZero, n => List.replicate n 0

/-- The ordered device operations `PickBestAlgorithm` issues between
allocating the operand buffers and finishing the candidate loop
(lines 227-286): initialize the input, filter and output buffers (the F16
broadcast when `cross_check_enabled`, i.e. when the element type is F16,
otherwise `ThenMemZero`), then `BlockHostUntilDone` (line 262), then one
trial per enumerated algorithm. -/
inductive PickStep
  | initBuffer (buf : BufferRole) (k : InitKind)
  | blockHostUntilDone
  | runTrial (alg : AlgorithmDesc)
deriving DecidableEq

/-- The initialization pattern chosen at lines 227-261, a function of the
element type alone. -/
def initKindFor (element_type : PrimitiveType) : InitKind :=
  if element_type = PrimitiveType.F16 then .broadcastF16 halfBits01
  else .memZero

/-- The trace of device operations issued by the setup phase and the
candidate loop, in program order (lines 227-286). -/
def pickSetupTrace (element_type : PrimitiveType)
    (algs : List AlgorithmDesc) : List PickStep :=
  [PickStep.initBuffer .inputBuf (initKindFor element_type),
   PickStep.initBuffer .filterBuf (initKindFor element_type),
   PickStep.initBuffer .outputBuf (initKindFor element_type)]
  ++ [PickStep.blockHostUntilDone]
  ++ algs.map PickStep.runTrial

/-! ## RunOnInstruction (lines 368-447) -/

/-- The HLO nodes `RunOnInstruction` builds or leaves in place: the original
or replacement custom call, the `GetTupleElement` extracting the conv
result, the empty-`u8` constant, and the repackaging tuple. -/
inductive HloNode
  | customCall (c : ConvCustomCall)
  | getTupleElement (shape : XShape) (operand : HloNode) (index : Nat)
  | tuple2 (fst snd : HloNode)
  | constantU8R1 (values : List Nat)
deriving DecidableEq

/-- The shape of an HLO node: custom calls and `GetTupleElement` carry their
shape, a 2-tuple is the tuple of its elements' shapes, and
`LiteralUtil::CreateR1<uint8>` of `n` values has shape `u8[n]`. -/
def shapeOf : HloNode → XShape
  | .customCall c => c.shape
  | .getTupleElement s _ _ => s
  | .tuple2 a b => .tuple2 (shapeOf a) (shapeOf b)
  | .constantU8R1 vs => .arr .U8 [(vs.length : Int)]

/-- `CudnnConvolutionAlgorithmPicker::RunOnInstruction` (lines 368-447),
given the outcome of its `PickBestAlgorithm` call.  On a failed pick the
error is logged and `(false, original instruction)` is returned
(lines 398-401).  On success, a new custom call is built with shape
`(conv_result_shape, u8[scratch_bytes])` (lines 417-420), the chosen
algorithm and tensor-op flag in its backend config (lines 422-424, 434), and
the original's call target, operands, window and dimension numbers
(lines 426-433); it is repackaged as
`tuple(get-tuple-element(new_call, 0), u8[] constant)` (lines 438-443),
which replaces the original instruction, and `true` is returned. -/
def runOnInstruction (instr : ConvCustomCall)
    (alg_scratch_and_tc : Except PickError (Int × Bool × Int)) :
    Bool × HloNode :=
  match alg_scratch_and_tc with
  | .error _ => (false, .customCall instr)
  | .ok (algorithm, tc_enabled, scratch_bytes) =>
    let new_call_shape :=
      XShape.tuple2 (tupleShapes0 instr.shape) (.arr .U8 [scratch_bytes])
    let backend_config : CudnnConvBackendConfig :=
      { algorithm := algorithm, tensor_ops_enabled := tc_enabled }
    let new_call : ConvCustomCall :=
      { call_target := instr.call_target
        operand0_shape := instr.operand0_shape
        operand1_shape := instr.operand1_shape
        shape := new_call_shape
        window := instr.window
        convolution_dimension_numbers := instr.convolution_dimension_numbers
        backend_config := some backend_config }
    let new_tuple :=
      HloNode.tuple2
        (.getTupleElement (tupleShapes0 new_call_shape) (.customCall new_call) 0)
        (.constantU8R1 [])
    (true, new_tuple)

/-! ## Proof-side characterizations of the candidate loop -/

/-- The best-selection part of the loop in isolation: the pure fold the
running best goes through, ignoring the cross-check bookkeeping. -/
def bestFold (acc : Option (AlgorithmDesc × Rat × Int)) :
    List (AlgorithmDesc × TrialOutcome) → Option (AlgorithmDesc × Rat × Int)
  | [] => acc
  | p :: rest =>
    if validTrial p.2 then
      match acc with
      | none =>
        bestFold (some (p.1, p.2.elapsed_time_in_ms, p.2.scratch_bytes)) rest
      | some (b, bt, bs) =>
        if p.2.elapsed_time_in_ms < bt then
          bestFold (some (p.1, p.2.elapsed_time_in_ms, p.2.scratch_bytes)) rest
        else bestFold (some (b, bt, bs)) rest
    else bestFold acc rest

theorem checkStep_error_eq (cc crash : Bool) (st : LoopState)
    (a : AlgorithmDesc) (t : TrialOutcome) (e : PickError)
    (h : checkStep cc crash st a t = .error e) : e = .checkFailed := by
  obtain ⟨best, comp⟩ := st
  cases comp <;> cases hce : t.compare_eq <;> cases cc <;> cases crash <;>
      cases hco : t.comp_create_ok <;>
    simp_all [checkStep]

theorem checkStep_ok_best (cc crash : Bool) (st : LoopState)
    (a : AlgorithmDesc) (t : TrialOutcome) (st1 : LoopState)
    (h : checkStep cc crash st a t = .ok st1) : st1.best = st.best := by
  obtain ⟨best, comp⟩ := st
  cases comp <;> cases hce : t.compare_eq <;> cases cc <;> cases crash <;>
      cases hco : t.comp_create_ok <;>
      simp_all [checkStep] <;>
    rw [← h]

theorem checkStep_crash_false_ok (cc : Bool) (st : LoopState)
    (a : AlgorithmDesc) (t : TrialOutcome) :
    ∃ st1, checkStep cc false st a t = .ok st1 := by
  obtain ⟨best, comp⟩ := st
  cases comp <;> cases hce : t.compare_eq <;> cases cc <;>
      cases hco : t.comp_create_ok <;>
    simp [checkStep, hce, hco]

theorem checkStep_comparator_some (cc crash : Bool) (st : LoopState)
    (a r : AlgorithmDesc) (t : TrialOutcome) (st1 : LoopState)
    (hr : st.comparator = some r)
    (h : checkStep cc crash st a t = .ok st1) : st1.comparator = some r := by
  obtain ⟨best, comp⟩ := st
  simp only at hr
  subst hr
  cases hce : t.compare_eq <;> cases crash <;>
      simp_all [checkStep] <;>
    rw [← h]

theorem trialStep_invalid (cc crash : Bool) (st : LoopState)
    (p : AlgorithmDesc × TrialOutcome) (hv : validTrial p.2 = false) :
    trialStep cc crash st p = .ok st := by
  unfold trialStep
  rw [hv]
  simp

theorem bestUpdate_best (p : AlgorithmDesc × TrialOutcome) (st1 : LoopState)
    (hv : validTrial p.2 = true) :
    (bestUpdate p st1).best = bestFold st1.best [p] := by
  unfold bestUpdate
  cases hacc : st1.best with
  | none => simp [bestFold, hv]
  | some pr =>
    rcases pr with ⟨b, bt, bs⟩
    by_cases ht : p.2.elapsed_time_in_ms < bt
    · simp [bestFold, hv, ht]
    · simp [bestFold, hv, ht, hacc]

theorem bestUpdate_comparator (p : AlgorithmDesc × TrialOutcome)
    (st1 : LoopState) : (bestUpdate p st1).comparator = st1.comparator := by
  unfold bestUpdate
  cases hacc : st1.best with
  | none => rfl
  | some pr =>
    rcases pr with ⟨b, bt, bs⟩
    by_cases ht : p.2.elapsed_time_in_ms < bt
    · simp [ht]
    · simp [ht]

theorem trialStep_error_eq (cc crash : Bool) (st : LoopState)
    (p : AlgorithmDesc × TrialOutcome) (e : PickError)
    (h : trialStep cc crash st p = .error e) : e = .checkFailed := by
  unfold trialStep at h
  by_cases hv : validTrial p.2
  · rw [if_pos hv] at h
    cases hcs : checkStep cc crash st p.1 p.2 with
    | error e' =>
      rw [hcs] at h
      have h' : (Except.error e' : Except PickError LoopState) = .error e := h
      cases h'
      exact checkStep_error_eq cc crash st p.1 p.2 _ hcs
    | ok st1 =>
      rw [hcs] at h
      have h' : (Except.ok (bestUpdate p st1) :
          Except PickError LoopState) = .error e := h
      cases h'
  · rw [if_neg hv] at h
    cases h

theorem trialStep_ok_best (cc crash : Bool) (st : LoopState)
    (p : AlgorithmDesc × TrialOutcome) (st2 : LoopState)
    (h : trialStep cc crash st p = .ok st2) :
    st2.best = bestFold st.best [p] := by
  unfold trialStep at h
  by_cases hv : validTrial p.2
  · rw [if_pos hv] at h
    cases hcs : checkStep cc crash st p.1 p.2 with
    | error e =>
      rw [hcs] at h
      have h' : (Except.error e : Except PickError LoopState) = .ok st2 := h
      cases h'
    | ok st1 =>
      rw [hcs] at h
      have h' : (Except.ok (bestUpdate p st1) :
          Except PickError LoopState) = .ok st2 := h
      cases h'
      rw [bestUpdate_best p st1 hv,
        checkStep_ok_best cc crash st p.1 p.2 st1 hcs]
  · rw [if_neg hv] at h
    cases h
    simp [bestFold, hv]

theorem trialStep_comparator_some (cc crash : Bool) (st : LoopState)
    (p : AlgorithmDesc × TrialOutcome) (st2 : LoopState) (r : AlgorithmDesc)
    (hr : st.comparator = some r)
    (h : trialStep cc crash st p = .ok st2) : st2.comparator = some r := by
  unfold trialStep at h
  by_cases hv : validTrial p.2
  · rw [if_pos hv] at h
    cases hcs : checkStep cc crash st p.1 p.2 with
    | error e =>
      rw [hcs] at h
      have h' : (Except.error e : Except PickError LoopState) = .ok st2 := h
      cases h'
    | ok st1 =>
      rw [hcs] at h
      have h' : (Except.ok (bestUpdate p st1) :
          Except PickError LoopState) = .ok st2 := h
      cases h'
      rw [bestUpdate_comparator p st1]
      exact checkStep_comparator_some cc crash st p.1 r p.2 st1 hr hcs
  · rw [if_neg hv] at h
    cases h
    exact hr

theorem trialStep_crash_false_ok (cc : Bool) (st : LoopState)
    (p : AlgorithmDesc × TrialOutcome) :
    ∃ st2, trialStep cc false st p = .ok st2 := by
  unfold trialStep
  by_cases hv : validTrial p.2
  · rw [if_pos hv]
    obtain ⟨st1, h1⟩ := checkStep_crash_false_ok cc st p.1 p.2
    rw [h1]
    exact ⟨bestUpdate p st1, rfl⟩
  · rw [if_neg hv]
    exact ⟨st, rfl⟩

theorem runTrials_error_eq (cc crash : Bool) (st : LoopState)
    (l : List (AlgorithmDesc × TrialOutcome)) (e : PickError)
    (h : runTrials cc crash st l = .error e) : e = .checkFailed := by
  induction l generalizing st with
  | nil => cases h
  | cons p rest ih =>
    unfold runTrials at h
    cases hs : trialStep cc crash st p with
    | error e' =>
      rw [hs] at h
      cases h
      exact trialStep_error_eq cc crash st p _ hs
    | ok st' =>
      rw [hs] at h
      exact ih st' h

theorem bestFold_append (acc : Option (AlgorithmDesc × Rat × Int))
    (l₁ l₂ : List (AlgorithmDesc × TrialOutcome)) :
    bestFold acc (l₁ ++ l₂) = bestFold (bestFold acc l₁) l₂ := by
  induction l₁ generalizing acc with
  | nil => rfl
  | cons p l₁ ih =>
    by_cases hv : validTrial p.2
    · cases acc with
      | none =>
        simp only [List.cons_append, bestFold, if_pos hv]
        exact ih _
      | some pr =>
        rcases pr with ⟨b, bt, bs⟩
        simp only [List.cons_append, bestFold, if_pos hv]
        by_cases ht : p.2.elapsed_time_in_ms < bt
        · rw [if_pos ht, if_pos ht]; exact ih _
        · rw [if_neg ht, if_neg ht]; exact ih _
    · simp only [List.cons_append, bestFold, if_neg hv]
      exact ih _

theorem runTrials_ok_best (cc crash : Bool) (st st' : LoopState)
    (l : List (AlgorithmDesc × TrialOutcome))
    (h : runTrials cc crash st l = .ok st') : st'.best = bestFold st.best l := by
  induction l generalizing st with
  | nil => cases h; rfl
  | cons p rest ih =>
    unfold runTrials at h
    cases hs : trialStep cc crash st p with
    | error e' => rw [hs] at h; cases h
    | ok st2 =>
      rw [hs] at h
      have hrest := ih st2 h
      have hstep := trialStep_ok_best cc crash st p st2 hs
      have happ := bestFold_append st.best [p] rest
      simp only [List.singleton_append] at happ
      rw [happ, ← hstep]
      exact hrest

theorem runTrials_crash_false_ok (cc : Bool) (st : LoopState)
    (l : List (AlgorithmDesc × TrialOutcome)) :
    ∃ st', runTrials cc false st l = .ok st' := by
  induction l generalizing st with
  | nil => exact ⟨st, rfl⟩
  | cons p rest ih =>
    obtain ⟨st2, h2⟩ := trialStep_crash_false_ok cc st p
    unfold runTrials
    rw [h2]
    exact ih st2

theorem runTrials_comparator_some (cc crash : Bool) (st st' : LoopState)
    (l : List (AlgorithmDesc × TrialOutcome)) (r : AlgorithmDesc)
    (hr : st.comparator = some r)
    (h : runTrials cc crash st l = .ok st') : st'.comparator = some r := by
  induction l generalizing st with
  | nil => cases h; exact hr
  | cons p rest ih =>
    unfold runTrials at h
    cases hs : trialStep cc crash st p with
    | error e' => rw [hs] at h; cases h
    | ok st2 =>
      rw [hs] at h
      exact ih st2 (trialStep_comparator_some cc crash st p st2 r hr hs) h

theorem runTrials_append (cc crash : Bool) (st : LoopState)
    (l₁ l₂ : List (AlgorithmDesc × TrialOutcome)) :
    runTrials cc crash st (l₁ ++ l₂) =
      match runTrials cc crash st l₁ with
      | .error e => .error e
      | .ok st1 => runTrials cc crash st1 l₂ := by
  induction l₁ generalizing st with
  | nil => rfl
  | cons p l₁ ih =>
    show (match trialStep cc crash st p with
          | .error e => (.error e : Except PickError LoopState)
          | .ok st' => runTrials cc crash st' (l₁ ++ l₂)) =
      match (match trialStep cc crash st p with
             | .error e => (.error e : Except PickError LoopState)
             | .ok st' => runTrials cc crash st' l₁) with
      | .error e => .error e
      | .ok st1 => runTrials cc crash st1 l₂
    cases trialStep cc crash st p with
    | error e => rfl
    | ok st2 => exact ih st2

theorem runTrials_all_invalid (cc crash : Bool) (st : LoopState)
    (l : List (AlgorithmDesc × TrialOutcome))
    (h : ∀ q ∈ l, validTrial q.2 = false) :
    runTrials cc crash st l = .ok st := by
  induction l with
  | nil => rfl
  | cons p rest ih =>
    unfold runTrials
    rw [trialStep_invalid cc crash st p (h p (by simp))]
    exact ih fun q hq => h q (by simp [hq])

/-- Characterization of the best-selection fold from an established best
`(b, bt, bs)`: either no later valid trial beats `bt` and the best is
unchanged, or the final best is the earliest valid trial achieving the strict
minimum of the elapsed times below `bt` (strictly smaller than every valid
trial before it, at most every valid trial after it). -/
theorem bestFold_some_char (l : List (AlgorithmDesc × TrialOutcome))
    (b : AlgorithmDesc) (bt : Rat) (bs : Int) :
    (bestFold (some (b, bt, bs)) l = some (b, bt, bs) ∧
      ∀ q ∈ l, validTrial q.2 = true → bt ≤ q.2.elapsed_time_in_ms)
    ∨ (∃ pre a t post, l = pre ++ (a, t) :: post ∧ validTrial t = true ∧
        t.elapsed_time_in_ms < bt ∧
        bestFold (some (b, bt, bs)) l
          = some (a, t.elapsed_time_in_ms, t.scratch_bytes) ∧
        (∀ q ∈ pre, validTrial q.2 = true →
          t.elapsed_time_in_ms < q.2.elapsed_time_in_ms) ∧
        (∀ q ∈ post, validTrial q.2 = true →
          t.elapsed_time_in_ms ≤ q.2.elapsed_time_in_ms)) := by
  induction l generalizing b bt bs with
  | nil => left; exact ⟨rfl, by simp⟩
  | cons p rest ih =>
    by_cases hv : validTrial p.2
    · by_cases ht : p.2.elapsed_time_in_ms < bt
      · have hstep : bestFold (some (b, bt, bs)) (p :: rest)
            = bestFold (some (p.1, p.2.elapsed_time_in_ms,
                p.2.scratch_bytes)) rest := by
          simp [bestFold, hv, ht]
        rcases ih p.1 p.2.elapsed_time_in_ms p.2.scratch_bytes with
          ⟨heq, hall⟩ | ⟨pre, a, t, post, hl, hvt, hlt, heq, hpre, hpost⟩
        · right
          refine ⟨[], p.1, p.2, rest, by simp, hv, ht, ?_, by simp, hall⟩
          rw [hstep, heq]
        · right
          refine ⟨p :: pre, a, t, post, by simp [hl], hvt, hlt.trans ht,
            by rw [hstep, heq], ?_, hpost⟩
          intro q hq hvq
          rcases List.mem_cons.mp hq with rfl | hq'
          · exact hlt
          · exact hpre q hq' hvq
      · have hstep : bestFold (some (b, bt, bs)) (p :: rest)
            = bestFold (some (b, bt, bs)) rest := by
          simp [bestFold, hv, ht]
        rcases ih b bt bs with
          ⟨heq, hall⟩ | ⟨pre, a, t, post, hl, hvt, hlt, heq, hpre, hpost⟩
        · left
          refine ⟨by rw [hstep, heq], ?_⟩
          intro q hq hvq
          rcases List.mem_cons.mp hq with rfl | hq'
          · exact le_of_not_lt ht
          · exact hall q hq' hvq
        · right
          refine ⟨p :: pre, a, t, post, by simp [hl], hvt, hlt,
            by rw [hstep, heq], ?_, hpost⟩
          intro q hq hvq
          rcases List.mem_cons.mp hq with rfl | hq'
          · exact lt_of_lt_of_le hlt (le_of_not_lt ht)
          · exact hpre q hq' hvq
    · have hstep : bestFold (some (b, bt, bs)) (p :: rest)
          = bestFold (some (b, bt, bs)) rest := by
        simp [bestFold, hv]
      rcases ih b bt bs with
        ⟨heq, hall⟩ | ⟨pre, a, t, post, hl, hvt, hlt, heq, hpre, hpost⟩
      · left
        refine ⟨by rw [hstep, heq], ?_⟩
        intro q hq hvq
        rcases List.mem_cons.mp hq with rfl | hq'
        · exact absurd hvq hv
        · exact hall q hq' hvq
      · right
        refine ⟨p :: pre, a, t, post, by simp [hl], hvt, hlt,
          by rw [hstep, heq], ?_, hpost⟩
        intro q hq hvq
        rcases List.mem_cons.mp hq with rfl | hq'
        · exact absurd hvq hv
        · exact hpre q hq' hvq

/-- Characterization of the best-selection fold from the initial (invalid)
best: either no trial is valid and there is no best, or the final best is the
earliest valid trial achieving the minimum elapsed time (strictly smaller
than every valid trial before it, at most every valid trial after it). -/
theorem bestFold_none_char (l : List (AlgorithmDesc × TrialOutcome)) :
    (bestFold none l = none ∧ ∀ q ∈ l, validTrial q.2 = false)
    ∨ (∃ pre a t post, l = pre ++ (a, t) :: post ∧ validTrial t = true ∧
        bestFold none l = some (a, t.elapsed_time_in_ms, t.scratch_bytes) ∧
        (∀ q ∈ pre, validTrial q.2 = true →
          t.elapsed_time_in_ms < q.2.elapsed_time_in_ms) ∧
        (∀ q ∈ post, validTrial q.2 = true →
          t.elapsed_time_in_ms ≤ q.2.elapsed_time_in_ms)) := by
  induction l with
  | nil => left; exact ⟨rfl, by simp⟩
  | cons p rest ih =>
    by_cases hv : validTrial p.2
    · have hstep : bestFold none (p :: rest)
          = bestFold (some (p.1, p.2.elapsed_time_in_ms,
              p.2.scratch_bytes)) rest := by
        simp [bestFold, hv]
      rcases bestFold_some_char rest p.1 p.2.elapsed_time_in_ms
          p.2.scratch_bytes with
        ⟨heq, hall⟩ | ⟨pre, a, t, post, hl, hvt, hlt, heq, hpre, hpost⟩
      · right
        exact ⟨[], p.1, p.2, rest, by simp, hv, by rw [hstep, heq],
          by simp, hall⟩
      · right
        refine ⟨p :: pre, a, t, post, by simp [hl], hvt,
          by rw [hstep, heq], ?_, hpost⟩
        intro q hq hvq
        rcases List.mem_cons.mp hq with rfl | hq'
        · exact hlt
        · exact hpre q hq' hvq
    · have hstep : bestFold none (p :: rest) = bestFold none rest := by
        simp [bestFold, hv]
      rcases ih with
        ⟨heq, hall⟩ | ⟨pre, a, t, post, hl, hvt, heq, hpre, hpost⟩
      · left
        refine ⟨by rw [hstep, heq], ?_⟩
        intro q hq
        rcases List.mem_cons.mp hq with rfl | hq'
        · exact eq_false_of_ne_true hv
        · exact hall q hq'
      · right
        refine ⟨p :: pre, a, t, post, by simp [hl], hvt,
          by rw [hstep, heq], ?_, hpost⟩
        intro q hq hvq
        rcases List.mem_cons.mp hq with rfl | hq'
        · rw [eq_false_of_ne_true hv] at hvq; cases hvq
        · exact hpre q hq' hvq

theorem bestFold_some_isSome (x : AlgorithmDesc × Rat × Int)
    (l : List (AlgorithmDesc × TrialOutcome)) :
    ∃ y, bestFold (some x) l = some y := by
  induction l generalizing x with
  | nil => exact ⟨x, rfl⟩
  | cons p rest ih =>
    rcases x with ⟨b, bt, bs⟩
    by_cases hv : validTrial p.2
    · simp only [bestFold, if_pos hv]
      by_cases ht : p.2.elapsed_time_in_ms < bt
      · rw [if_pos ht]; exact ih _
      · rw [if_neg ht]; exact ih _
    · simp only [bestFold, if_neg hv]
      exact ih _

theorem runTrials_cons_ok (cc crash : Bool) (st st2 : LoopState)
    (p : AlgorithmDesc × TrialOutcome)
    (l : List (AlgorithmDesc × TrialOutcome))
    (h : trialStep cc crash st p = .ok st2) :
    runTrials cc crash st (p :: l) = runTrials cc crash st2 l := by
  show (match trialStep cc crash st p with
        | .error e => (.error e : Except PickError LoopState)
        | .ok st' => runTrials cc crash st' l) = _
  rw [h]

theorem runTrials_cons_error (cc crash : Bool) (st : LoopState)
    (p : AlgorithmDesc × TrialOutcome) (e : PickError)
    (l : List (AlgorithmDesc × TrialOutcome))
    (h : trialStep cc crash st p = .error e) :
    runTrials cc crash st (p :: l) = .error e := by
  show (match trialStep cc crash st p with
        | .error e => (.error e : Except PickError LoopState)
        | .ok st' => runTrials cc crash st' l) = _
  rw [h]

theorem runTrials_skip_invalid (cc crash : Bool) (st : LoopState)
    (l₁ l₂ : List (AlgorithmDesc × TrialOutcome))
    (h : ∀ q ∈ l₁, validTrial q.2 = false) :
    runTrials cc crash st (l₁ ++ l₂) = runTrials cc crash st l₂ := by
  rw [runTrials_append, runTrials_all_invalid cc crash st l₁ h]

/-! ## Claim theorems -/

theorem toInt64_of_lt (n : Nat) (h : n < 2 ^ 63) : toInt64 n = (n : Int) := by
  unfold toInt64
  have h64 : n < 2 ^ 64 := lt_trans h (by norm_num)
  rw [Nat.mod_eq_of_lt h64, if_pos h]

theorem winogradTotalSize_comm (input_shape output_shape : Shape)
    (dnums : ConvolutionDimensionNumbers) :
    winogradCodeTotalSize input_shape output_shape dnums
      = winogradExactTotalSize input_shape output_shape dnums := by
  simp only [winogradCodeTotalSize, winogradExactTotalSize]
  ring

theorem winogradEligibleSpec_on_exact (version : Option Nat)
    (input_shape output_shape : Shape)
    (dnums : ConvolutionDimensionNumbers) :
    winogradEligibleSpec version input_shape output_shape dnums
      = (match version with
         | some v => if v ≥ 7 then true
             else decide (winogradExactTotalSize input_shape output_shape dnums
               < 2 ^ 31)
         | none => decide (winogradExactTotalSize input_shape output_shape dnums
             < 2 ^ 31)) := by
  cases version with
  | none =>
    simp only [winogradEligibleSpec, winogradExactTotalSize]
    norm_num
  | some v =>
    by_cases h7 : v ≥ 7
    · simp [winogradEligibleSpec, h7]
    · simp only [winogradEligibleSpec, winogradExactTotalSize]
      simp only [if_neg h7]
      norm_num

/-- C3 counterexample: the claimed exact-arithmetic "iff" is false of the
code.  At input dims `[1, 1, 2^16, 2^15]` (batch 1, 1 input channel,
`2^16 × 2^15` spatial) with `2^31` output channels and library version 6,
the exact `total_size` is `2^62 * 4 = 2^64 ≥ 2^31`, so the claimed formula
declares the family ineligible — but the source's final multiply by
`sizeof(float)` wraps modulo `2^64` to `0 < 2^31`, and
`ShouldIncludeWinogradNonfusedAlgo` returns `true` (eligible). -/
theorem winograd_exact_formula_cex :
    shouldIncludeWinogradNonfusedAlgo (some 6)
        { element_type := .F16, dimensions := [1, 1, 2 ^ 16, 2 ^ 15] }
        { element_type := .F16, dimensions := [1, 2 ^ 31] }
        { input_batch_dimension := 0, input_feature_dimension := 1,
          input_spatial_dimensions := [2, 3], output_feature_dimension := 1 }
      = true
    ∧ winogradEligibleSpec (some 6)
        { element_type := .F16, dimensions := [1, 1, 2 ^ 16, 2 ^ 15] }
        { element_type := .F16, dimensions := [1, 2 ^ 31] }
        { input_batch_dimension := 0, input_feature_dimension := 1,
          input_spatial_dimensions := [2, 3], output_feature_dimension := 1 }
      = false := by
  constructor
  · rfl
  · rfl

/-- C3 amended: the Winograd-inclusion policy is a pure function of the
device-library version and the shapes: with a successfully queried major
version ≥ 7 the family is eligible regardless of shape; otherwise it is
eligible iff `total_size < 2^31` where `total_size` is the claim's product
`ceil(batch/16) * max(input_channels, output_channels) * spatial_rows *
spatial_cols * sizeof(float32)` (with `spatial_cols = 1` for a single
spatial dimension) computed in 64-bit arithmetic — the final multiply wraps
modulo `2^64` and the result is read back as a signed 64-bit value.  For
shapes whose exact product stays below `2^63`, this coincides with the
claim's exact formula. -/
theorem winograd_policy_matches_spec64 (version : Option Nat)
    (input_shape output_shape : Shape)
    (dnums : ConvolutionDimensionNumbers) :
    shouldIncludeWinogradNonfusedAlgo version input_shape output_shape dnums
        = winogradEligibleSpec64 version input_shape output_shape dnums
    ∧ (winogradExactTotalSize input_shape output_shape dnums < 2 ^ 63 →
        shouldIncludeWinogradNonfusedAlgo version input_shape output_shape
            dnums
          = winogradEligibleSpec version input_shape output_shape dnums) := by
  constructor
  · cases version with
    | none =>
      show winogradShapeOk input_shape output_shape dnums = _
      unfold winogradShapeOk winogradEligibleSpec64
      rw [winogradTotalSize_comm]
    | some v =>
      by_cases h7 : v ≥ 7
      · simp [shouldIncludeWinogradNonfusedAlgo, winogradEligibleSpec64, h7]
      · simp only [shouldIncludeWinogradNonfusedAlgo, winogradEligibleSpec64,
          winogradShapeOk]
        simp only [ge_iff_le, decide_eq_true_eq, if_neg h7]
        rw [winogradTotalSize_comm]
  · intro hex
    rw [winogradEligibleSpec_on_exact]
    cases version with
    | none =>
      show winogradShapeOk input_shape output_shape dnums = _
      unfold winogradShapeOk
      rw [winogradTotalSize_comm, toInt64_of_lt _ hex]
      apply decide_eq_decide.mpr
      exact_mod_cast Iff.rfl
    | some v =>
      by_cases h7 : v ≥ 7
      · simp [shouldIncludeWinogradNonfusedAlgo, h7]
      · simp only [shouldIncludeWinogradNonfusedAlgo, winogradShapeOk]
        simp only [ge_iff_le, decide_eq_true_eq, if_neg h7]
        rw [winogradTotalSize_comm, toInt64_of_lt _ hex]
        apply decide_eq_decide.mpr
        exact_mod_cast Iff.rfl

/-- Witness for C3's amended theorem at a concrete small shape (exact total
4, far below `2^63`): the code agrees with both the 64-bit spec and, there,
the exact formula. -/
theorem winograd_policy_matches_spec64_witness :
    shouldIncludeWinogradNonfusedAlgo (some 6)
        { element_type := .F32, dimensions := [1, 1, 1, 1] }
        { element_type := .F32, dimensions := [1, 1] }
        { input_batch_dimension := 0, input_feature_dimension := 1,
          input_spatial_dimensions := [2, 3], output_feature_dimension := 1 }
      = winogradEligibleSpec64 (some 6)
        { element_type := .F32, dimensions := [1, 1, 1, 1] }
        { element_type := .F32, dimensions := [1, 1] }
        { input_batch_dimension := 0, input_feature_dimension := 1,
          input_spatial_dimensions := [2, 3], output_feature_dimension := 1 }
    ∧ shouldIncludeWinogradNonfusedAlgo (some 6)
        { element_type := .F32, dimensions := [1, 1, 1, 1] }
        { element_type := .F32, dimensions := [1, 1] }
        { input_batch_dimension := 0, input_feature_dimension := 1,
          input_spatial_dimensions := [2, 3], output_feature_dimension := 1 }
      = winogradEligibleSpec (some 6)
        { element_type := .F32, dimensions := [1, 1, 1, 1] }
        { element_type := .F32, dimensions := [1, 1] }
        { input_batch_dimension := 0, input_feature_dimension := 1,
          input_spatial_dimensions := [2, 3], output_feature_dimension := 1 } :=
  ⟨(winograd_policy_matches_spec64 (some 6)
      { element_type := .F32, dimensions := [1, 1, 1, 1] }
      { element_type := .F32, dimensions := [1, 1] }
      { input_batch_dimension := 0, input_feature_dimension := 1,
        input_spatial_dimensions := [2, 3],
        output_feature_dimension := 1 }).1,
   (winograd_policy_matches_spec64 (some 6)
      { element_type := .F32, dimensions := [1, 1, 1, 1] }
      { element_type := .F32, dimensions := [1, 1] }
      { input_batch_dimension := 0, input_feature_dimension := 1,
        input_spatial_dimensions := [2, 3],
        output_feature_dimension := 1 }).2 (by decide)⟩

/-- C9 counterexample: a failed device-library version query is *not* fatal
and is not propagated: `ShouldIncludeWinogradNonfusedAlgo` still returns an
eligibility decision (here `true` for a small shape and `false` for a large
one, exactly the pre-7 shape check), so autotuning proceeds past the failed
query, contradicting the claim that it never does. -/
theorem failed_version_query_still_tunes_cex :
    shouldIncludeWinogradNonfusedAlgo none
        { element_type := .F32, dimensions := [1, 1, 1, 1] }
        { element_type := .F32, dimensions := [1, 1, 1, 1] }
        { input_batch_dimension := 0, input_feature_dimension := 1,
          input_spatial_dimensions := [2, 3], output_feature_dimension := 1 }
      = true
    ∧ shouldIncludeWinogradNonfusedAlgo none
        { element_type := .F32, dimensions := [16, 2 ^ 31, 1, 1] }
        { element_type := .F32, dimensions := [16, 2 ^ 31, 1, 1] }
        { input_batch_dimension := 0, input_feature_dimension := 1,
          input_spatial_dimensions := [2, 3], output_feature_dimension := 1 }
      = false := by
  constructor
  · rfl
  · rfl

/-- C9 amended: a failure of the device-library version query is neither
fatal nor propagated out of the picking operation;
`ShouldIncludeWinogradNonfusedAlgo` treats it exactly like a pre-7 library
and falls back to the shape-based size check, and autotuning proceeds with
that eligibility decision. -/
theorem failed_version_query_falls_back (input_shape output_shape : Shape)
    (dnums : ConvolutionDimensionNumbers) :
    shouldIncludeWinogradNonfusedAlgo none input_shape output_shape dnums
      = winogradShapeOk input_shape output_shape dnums := rfl

/-- C6: the "result" buffer is selected from the three operand buffers
purely by convolution kind: Forward → output, BackwardInput → input,
BackwardFilter → filter. -/
theorem result_buf_by_kind :
    ∀ (α : Type) (input_buf filter_buf output_buf : α),
      result_buf .kForward input_buf filter_buf output_buf = output_buf
      ∧ result_buf .kBackwardInput input_buf filter_buf output_buf = input_buf
      ∧ result_buf .kBackwardFilter input_buf filter_buf output_buf
          = filter_buf :=
  fun _ _ _ _ => ⟨rfl, rfl, rfl⟩

/-- C2 counterexample: the claim that the *cumulative* allocated size never
exceeds the 4 GiB budget is false: `AllocateBytes` only checks the single
request against `GetMemoryLimitInBytes`, so two successful requests of
`2^32` bytes each (with the device allocator succeeding) leave
`TotalAllocatedBytes = 2^33 > 2^32`. -/
theorem scratch_cumulative_budget_cex :
    ((allocateBytes (fun _ => true) (2 ^ 32)
        { allocated_buffers := [], total_allocated_bytes := 0 }).2.isOk
      = true)
    ∧ ((allocateBytes (fun _ => true) (2 ^ 32)
        (allocateBytes (fun _ => true) (2 ^ 32)
          { allocated_buffers := [], total_allocated_bytes := 0 }).1).2.isOk
      = true)
    ∧ ((allocateBytes (fun _ => true) (2 ^ 32)
        (allocateBytes (fun _ => true) (2 ^ 32)
          { allocated_buffers := [], total_allocated_bytes := 0 }).1).1.total_allocated_bytes
      = 2 ^ 33)
    ∧ ¬((2 ^ 33 : Int) ≤ 2 ^ 32) := by
  refine ⟨rfl, rfl, rfl, by decide⟩

/-- C2 amended: only the *single-request* size is checked against the 4 GiB
budget: a request strictly larger than the limit fails with the
RESOURCE_EXHAUSTED error carrying the requested and limit sizes and leaves
the allocator untouched, and a failed trial (a run that did not launch) only
skips that candidate — the loop continues with the remaining candidates.
The cumulative total is not checked and can exceed the budget. -/
theorem allocateBytes_request_limit_only (m : Int → Bool) (b : Int)
    (st : ScratchState) (hb : b > memoryLimitInBytes) (cc crash : Bool)
    (lst : LoopState) (a : AlgorithmDesc) (t : TrialOutcome)
    (ht : t.launch_ok = false)
    (rest : List (AlgorithmDesc × TrialOutcome)) :
    allocateBytes m b st
        = (st, .error (.resourceExhausted b memoryLimitInBytes))
    ∧ runTrials cc crash lst ((a, t) :: rest) = runTrials cc crash lst rest := by
  constructor
  · unfold allocateBytes
    rw [if_pos hb]
  · have hv : validTrial t = false := by simp [validTrial, ht]
    exact runTrials_cons_ok cc crash lst lst (a, t) rest
      (trialStep_invalid cc crash lst (a, t) hv)

/-- Witness for C2's amended theorem at a concrete over-budget request and a
concrete failed trial. -/
theorem allocateBytes_request_limit_only_witness :
    allocateBytes (fun _ => true) (2 ^ 32 + 1)
        { allocated_buffers := [], total_allocated_bytes := 0 }
      = ({ allocated_buffers := [], total_allocated_bytes := 0 },
         .error (.resourceExhausted (2 ^ 32 + 1) memoryLimitInBytes))
    ∧ runTrials false false { best := none, comparator := none }
        [(⟨0, false⟩, ⟨false, false, 0, 0, false, .equal⟩)]
      = runTrials false false { best := none, comparator := none } [] :=
  allocateBytes_request_limit_only (fun _ => true) (2 ^ 32 + 1)
    { allocated_buffers := [], total_allocated_bytes := 0 } (by decide)
    false false { best := none, comparator := none } ⟨0, false⟩
    ⟨false, false, 0, 0, false, .equal⟩ rfl []

/-- C10: `AllocateBytes` is atomic: on any error (over-limit request or
device-allocator failure) the allocator's fields are unchanged; on success
the running total grows by exactly the requested bytes and exactly the new
buffer is appended to the owned list.  (Negative sizes abort the process via
`CHECK_GE`, hence the `0 ≤ byte_size` hypothesis.) -/
theorem allocateBytes_atomic (m : Int → Bool) (b : Int) (st : ScratchState)
    (hb : 0 ≤ b) :
    (∀ e, (allocateBytes m b st).2 = .error e → (allocateBytes m b st).1 = st)
    ∧ ((allocateBytes m b st).2.isOk = true →
        (allocateBytes m b st).1.total_allocated_bytes
            = st.total_allocated_bytes + b
        ∧ (allocateBytes m b st).1.allocated_buffers
            = st.allocated_buffers ++ [b]) := by
  unfold allocateBytes
  by_cases h1 : b > memoryLimitInBytes
  · simp [h1, Except.isOk, Except.toBool]
  · by_cases h2 : m b <;> simp [h1, h2, Except.isOk, Except.toBool]

/-- Witness for C10 at a concrete in-budget request. -/
theorem allocateBytes_atomic_witness :
    (∀ e, (allocateBytes (fun _ => true) 8
        { allocated_buffers := [], total_allocated_bytes := 0 }).2 = .error e →
      (allocateBytes (fun _ => true) 8
        { allocated_buffers := [], total_allocated_bytes := 0 }).1
        = { allocated_buffers := [], total_allocated_bytes := 0 })
    ∧ ((allocateBytes (fun _ => true) 8
        { allocated_buffers := [], total_allocated_bytes := 0 }).2.isOk = true →
        (allocateBytes (fun _ => true) 8
          { allocated_buffers := [], total_allocated_bytes := 0 }).1.total_allocated_bytes
            = ({ allocated_buffers := [], total_allocated_bytes := 0 } :
                ScratchState).total_allocated_bytes + 8
        ∧ (allocateBytes (fun _ => true) 8
          { allocated_buffers := [], total_allocated_bytes := 0 }).1.allocated_buffers
            = ({ allocated_buffers := [], total_allocated_bytes := 0 } :
                ScratchState).allocated_buffers ++ [8]) :=
  allocateBytes_atomic (fun _ => true) 8
    { allocated_buffers := [], total_allocated_bytes := 0 } (by decide)

/-- C8: before any trial runs, the three operand buffers are initialized as
a function of the element type alone — the F16 broadcast of the fixed
non-zero half pattern when the element type is F16, `ThenMemZero` otherwise
— and `BlockHostUntilDone` sits between the initialization operations and
every trial in the operation trace. -/
theorem pickSetupTrace_init_then_block (element_type : PrimitiveType)
    (algs : List AlgorithmDesc) :
    pickSetupTrace element_type algs
      = [PickStep.initBuffer .inputBuf (initKindFor element_type),
         PickStep.initBuffer .filterBuf (initKindFor element_type),
         PickStep.initBuffer .outputBuf (initKindFor element_type),
         PickStep.blockHostUntilDone] ++ algs.map PickStep.runTrial
    ∧ initKindFor element_type
        = (if element_type = PrimitiveType.F16 then
            InitKind.broadcastF16 halfBits01 else InitKind.memZero)
    ∧ halfBits01 ≠ 0
    ∧ (∀ n, initContents (InitKind.broadcastF16 halfBits01) n
        = List.replicate n halfBits01)
    ∧ (∀ n, initContents InitKind.memZero n = List.replicate n 0) :=
  ⟨rfl, rfl, by decide, fun _ => rfl, fun _ => rfl⟩

/-- C4: when every candidate trial fails or returns an invalid profile,
`PickBestAlgorithm` returns the "all algorithms failed" error identifying
the instruction, and `RunOnInstruction` converts that error into
`changed = false`, leaving the original instruction in place. -/
theorem pick_all_failed_no_change (element_type : PrimitiveType)
    (crash : Bool) (instr : ConvCustomCall)
    (trials : List (AlgorithmDesc × TrialOutcome))
    (h : ∀ q ∈ trials, validTrial q.2 = false) :
    pickBestAlgorithm element_type crash instr trials
        = .error (.allFailed instr)
    ∧ runOnInstruction instr (pickBestAlgorithm element_type crash instr trials)
        = (false, .customCall instr) := by
  have hrun := runTrials_all_invalid
    (decide (element_type = PrimitiveType.F16)) crash
    { best := none, comparator := none } trials h
  have hpick : pickBestAlgorithm element_type crash instr trials
      = .error (.allFailed instr) := by
    unfold pickBestAlgorithm
    rw [hrun]
  exact ⟨hpick, by rw [hpick]; rfl⟩

/-- Witness for C4 at a concrete instruction and two failing trials. -/
theorem pick_all_failed_no_change_witness :
    pickBestAlgorithm PrimitiveType.F32 false
        { call_target := .convForward,
          operand0_shape := .arr .F32 [1], operand1_shape := .arr .F32 [1],
          shape := .tuple2 (.arr .F32 [1]) (.arr .U8 [0]),
          window := ⟨0⟩,
          convolution_dimension_numbers :=
            { input_batch_dimension := 0, input_feature_dimension := 1,
              input_spatial_dimensions := [2, 3],
              output_feature_dimension := 1 },
          backend_config := none }
        [(⟨0, false⟩, ⟨false, false, 5, 0, false, .equal⟩),
         (⟨1, true⟩, ⟨true, false, 3, 0, false, .equal⟩)]
        = .error (.allFailed
          { call_target := .convForward,
            operand0_shape := .arr .F32 [1], operand1_shape := .arr .F32 [1],
            shape := .tuple2 (.arr .F32 [1]) (.arr .U8 [0]),
            window := ⟨0⟩,
            convolution_dimension_numbers :=
              { input_batch_dimension := 0, input_feature_dimension := 1,
                input_spatial_dimensions := [2, 3],
                output_feature_dimension := 1 },
            backend_config := none })
    ∧ runOnInstruction
        { call_target := .convForward,
          operand0_shape := .arr .F32 [1], operand1_shape := .arr .F32 [1],
          shape := .tuple2 (.arr .F32 [1]) (.arr .U8 [0]),
          window := ⟨0⟩,
          convolution_dimension_numbers :=
            { input_batch_dimension := 0, input_feature_dimension := 1,
              input_spatial_dimensions := [2, 3],
              output_feature_dimension := 1 },
          backend_config := none }
        (pickBestAlgorithm PrimitiveType.F32 false
          { call_target := .convForward,
            operand0_shape := .arr .F32 [1], operand1_shape := .arr .F32 [1],
            shape := .tuple2 (.arr .F32 [1]) (.arr .U8 [0]),
            window := ⟨0⟩,
            convolution_dimension_numbers :=
              { input_batch_dimension := 0, input_feature_dimension := 1,
                input_spatial_dimensions := [2, 3],
                output_feature_dimension := 1 },
            backend_config := none }
          [(⟨0, false⟩, ⟨false, false, 5, 0, false, .equal⟩),
           (⟨1, true⟩, ⟨true, false, 3, 0, false, .equal⟩)])
        = (false, .customCall
          { call_target := .convForward,
            operand0_shape := .arr .F32 [1], operand1_shape := .arr .F32 [1],
            shape := .tuple2 (.arr .F32 [1]) (.arr .U8 [0]),
            window := ⟨0⟩,
            convolution_dimension_numbers :=
              { input_batch_dimension := 0, input_feature_dimension := 1,
                input_spatial_dimensions := [2, 3],
                output_feature_dimension := 1 },
            backend_config := none }) :=
  pick_all_failed_no_change PrimitiveType.F32 false _ _ (by decide)

/-- C7: on a successful pick, the rewriter builds a replacement custom call
whose backend config carries the chosen algorithm id and tensor-op flag,
whose shape is the tuple of the original convolution result shape and a
`u8[scratch_bytes]` region, and which carries the original call target,
window and dimension numbers; the spliced-in replacement tuple has the same
external shape as the original instruction, and the result is
`changed = true`. -/
theorem runOnInstruction_success_rewrite (instr : ConvCustomCall)
    (pick : Except PickError (Int × Bool × Int)) (alg : Int) (tc : Bool)
    (scratch : Int) (conv_res : XShape)
    (hp : pick = .ok (alg, tc, scratch))
    (hs : instr.shape = .tuple2 conv_res (.arr .U8 [0])) :
    ∃ new_call : ConvCustomCall,
      runOnInstruction instr pick
        = (true, .tuple2
            (.getTupleElement conv_res (.customCall new_call) 0)
            (.constantU8R1 []))
      ∧ new_call.backend_config
          = some { algorithm := alg, tensor_ops_enabled := tc }
      ∧ new_call.shape = .tuple2 conv_res (.arr .U8 [scratch])
      ∧ new_call.call_target = instr.call_target
      ∧ new_call.window = instr.window
      ∧ new_call.convolution_dimension_numbers
          = instr.convolution_dimension_numbers
      ∧ shapeOf (runOnInstruction instr pick).2 = instr.shape := by
  subst hp
  obtain ⟨ct, o0, o1, sh, w, dn, bc⟩ := instr
  dsimp only at hs
  subst hs
  exact ⟨_, rfl, rfl, rfl, rfl, rfl, rfl, rfl⟩

/-- Witness for C7 at a concrete instruction and pick result. -/
theorem runOnInstruction_success_rewrite_witness :
    ∃ new_call : ConvCustomCall,
      runOnInstruction
          { call_target := .convForward,
            operand0_shape := .arr .F32 [2], operand1_shape := .arr .F32 [2],
            shape := .tuple2 (.arr .F32 [2]) (.arr .U8 [0]),
            window := ⟨7⟩,
            convolution_dimension_numbers :=
              { input_batch_dimension := 0, input_feature_dimension := 1,
                input_spatial_dimensions := [2, 3],
                output_feature_dimension := 1 },
            backend_config := none }
          (.ok (4, true, 128))
        = (true, .tuple2
            (.getTupleElement (.arr .F32 [2]) (.customCall new_call) 0)
            (.constantU8R1 []))
      ∧ new_call.backend_config
          = some { algorithm := 4, tensor_ops_enabled := true }
      ∧ new_call.shape = .tuple2 (.arr .F32 [2]) (.arr .U8 [128])
      ∧ new_call.call_target
          = ({ call_target := .convForward,
               operand0_shape := .arr .F32 [2],
               operand1_shape := .arr .F32 [2],
               shape := .tuple2 (.arr .F32 [2]) (.arr .U8 [0]),
               window := ⟨7⟩,
               convolution_dimension_numbers :=
                 { input_batch_dimension := 0, input_feature_dimension := 1,
                   input_spatial_dimensions := [2, 3],
                   output_feature_dimension := 1 },
               backend_config := none } : ConvCustomCall).call_target
      ∧ new_call.window
          = ({ call_target := .convForward,
               operand0_shape := .arr .F32 [2],
               operand1_shape := .arr .F32 [2],
               shape := .tuple2 (.arr .F32 [2]) (.arr .U8 [0]),
               window := ⟨7⟩,
               convolution_dimension_numbers :=
                 { input_batch_dimension := 0, input_feature_dimension := 1,
                   input_spatial_dimensions := [2, 3],
                   output_feature_dimension := 1 },
               backend_config := none } : ConvCustomCall).window
      ∧ new_call.convolution_dimension_numbers
          = ({ call_target := .convForward,
               operand0_shape := .arr .F32 [2],
               operand1_shape := .arr .F32 [2],
               shape := .tuple2 (.arr .F32 [2]) (.arr .U8 [0]),
               window := ⟨7⟩,
               convolution_dimension_numbers :=
                 { input_batch_dimension := 0, input_feature_dimension := 1,
                   input_spatial_dimensions := [2, 3],
                   output_feature_dimension := 1 },
               backend_config := none } : ConvCustomCall).convolution_dimension_numbers
      ∧ shapeOf (runOnInstruction
          { call_target := .convForward,
            operand0_shape := .arr .F32 [2], operand1_shape := .arr .F32 [2],
            shape := .tuple2 (.arr .F32 [2]) (.arr .U8 [0]),
            window := ⟨7⟩,
            convolution_dimension_numbers :=
              { input_batch_dimension := 0, input_feature_dimension := 1,
                input_spatial_dimensions := [2, 3],
                output_feature_dimension := 1 },
            backend_config := none }
          (.ok (4, true, 128))).2
        = ({ call_target := .convForward,
             operand0_shape := .arr .F32 [2], operand1_shape := .arr .F32 [2],
             shape := .tuple2 (.arr .F32 [2]) (.arr .U8 [0]),
             window := ⟨7⟩,
             convolution_dimension_numbers :=
               { input_batch_dimension := 0, input_feature_dimension := 1,
                 input_spatial_dimensions := [2, 3],
                 output_feature_dimension := 1 },
             backend_config := none } : ConvCustomCall).shape :=
  runOnInstruction_success_rewrite _ _ 4 true 128 (.arr .F32 [2]) rfl rfl

/-- C1: whenever at least one candidate trial returns a valid profile and
the candidate loop runs to completion (no fatal cross-check abort),
`PickBestAlgorithm` returns the `(algorithm id, tensor-op flag, scratch
bytes)` of the valid trial with minimal elapsed time; on exact ties the
earlier-enumerated candidate wins (the winner's time is strictly below every
valid trial before it and at most every valid trial overall), the first
valid trial always becoming the initial best. -/
theorem pickBestAlgorithm_returns_strict_min (element_type : PrimitiveType)
    (crash : Bool) (instr : ConvCustomCall)
    (trials : List (AlgorithmDesc × TrialOutcome))
    (hv : trials.any (fun q => validTrial q.2) = true)
    (hc : (runTrials (decide (element_type = PrimitiveType.F16)) crash
        { best := none, comparator := none } trials).isOk = true) :
    ∃ pre a t post,
      trials = pre ++ (a, t) :: post ∧ validTrial t = true
      ∧ pickBestAlgorithm element_type crash instr trials
          = .ok (a.algo_id, a.tensor_ops_enabled, t.scratch_bytes)
      ∧ (∀ q ∈ pre, validTrial q.2 = true →
          t.elapsed_time_in_ms < q.2.elapsed_time_in_ms)
      ∧ (∀ q ∈ trials, validTrial q.2 = true →
          t.elapsed_time_in_ms ≤ q.2.elapsed_time_in_ms) := by
  cases hr : runTrials (decide (element_type = PrimitiveType.F16)) crash
      { best := none, comparator := none } trials with
  | error e => rw [hr] at hc; cases hc
  | ok st =>
    have hbest : st.best = bestFold none trials :=
      runTrials_ok_best _ _ _ _ _ hr
    rcases bestFold_none_char trials with
      ⟨heq, hall⟩ | ⟨pre, a, t, post, hl, hvt, heq, hpre, hpost⟩
    · exfalso
      rcases List.any_eq_true.mp hv with ⟨q, hq, hvq⟩
      rw [hall q hq] at hvq
      cases hvq
    · refine ⟨pre, a, t, post, hl, hvt, ?_, hpre, ?_⟩
      · unfold pickBestAlgorithm
        rw [hr]
        show (match st.best with
              | some (alg, _, bytes_used) =>
                (Except.ok (alg.algo_id, alg.tensor_ops_enabled, bytes_used) :
                  Except PickError (Int × Bool × Int))
              | none => .error (.allFailed instr)) = _
        rw [hbest, heq]
      · intro q hq hvq
        rw [hl] at hq
        rcases List.mem_append.mp hq with hq1 | hq2
        · exact le_of_lt (hpre q hq1 hvq)
        · rcases List.mem_cons.mp hq2 with rfl | hq3
          · exact le_refl _
          · exact hpost q hq3 hvq

/-- Witness for C1: two valid trials with times 10 ms and 5 ms — the picker
returns the second (faster) candidate. -/
theorem pickBestAlgorithm_returns_strict_min_witness :
    ∃ pre a t post,
      [((⟨0, false⟩ : AlgorithmDesc),
        (⟨true, true, 10, 64, false, .equal⟩ : TrialOutcome)),
       ((⟨1, true⟩ : AlgorithmDesc),
        (⟨true, true, 5, 32, false, .equal⟩ : TrialOutcome))]
        = pre ++ (a, t) :: post
      ∧ validTrial t = true
      ∧ pickBestAlgorithm PrimitiveType.F32 false
          { call_target := .convForward,
            operand0_shape := .arr .F32 [1], operand1_shape := .arr .F32 [1],
            shape := .tuple2 (.arr .F32 [1]) (.arr .U8 [0]),
            window := ⟨0⟩,
            convolution_dimension_numbers :=
              { input_batch_dimension := 0, input_feature_dimension := 1,
                input_spatial_dimensions := [2, 3],
                output_feature_dimension := 1 },
            backend_config := none }
          [((⟨0, false⟩ : AlgorithmDesc),
            (⟨true, true, 10, 64, false, .equal⟩ : TrialOutcome)),
           ((⟨1, true⟩ : AlgorithmDesc),
            (⟨true, true, 5, 32, false, .equal⟩ : TrialOutcome))]
          = .ok (a.algo_id, a.tensor_ops_enabled, t.scratch_bytes)
      ∧ (∀ q ∈ pre, validTrial q.2 = true →
          t.elapsed_time_in_ms < q.2.elapsed_time_in_ms)
      ∧ (∀ q ∈ [((⟨0, false⟩ : AlgorithmDesc),
            (⟨true, true, 10, 64, false, .equal⟩ : TrialOutcome)),
           ((⟨1, true⟩ : AlgorithmDesc),
            (⟨true, true, 5, 32, false, .equal⟩ : TrialOutcome))],
          validTrial q.2 = true →
          t.elapsed_time_in_ms ≤ q.2.elapsed_time_in_ms) :=
  pickBestAlgorithm_returns_strict_min PrimitiveType.F32 false
    { call_target := .convForward,
      operand0_shape := .arr .F32 [1], operand1_shape := .arr .F32 [1],
      shape := .tuple2 (.arr .F32 [1]) (.arr .U8 [0]),
      window := ⟨0⟩,
      convolution_dimension_numbers :=
        { input_batch_dimension := 0, input_feature_dimension := 1,
          input_spatial_dimensions := [2, 3],
          output_feature_dimension := 1 },
      backend_config := none }
    [((⟨0, false⟩ : AlgorithmDesc),
      (⟨true, true, 10, 64, false, .equal⟩ : TrialOutcome)),
     ((⟨1, true⟩ : AlgorithmDesc),
      (⟨true, true, 5, 32, false, .equal⟩ : TrialOutcome))]
    (by decide) (by decide)

/-- C5: in cross-check mode (element type F16), with the candidates
consisting of invalid trials, a first valid trial `(a1, t1)` whose
comparator creation succeeds, more invalid trials, a second valid trial
`(a2, t2)` whose comparison reports an error or a mismatch, and arbitrary
further trials: the first valid candidate becomes the reference (the final
comparator is bound to `a1`, assigned once, independently of the elapsed
times, which are unconstrained here); the subsequent valid candidate is
compared against it, and the resulting diagnostic is fatal to the whole
picking call iff the crash-on-verification-failure flag is set — with the
flag clear, tuning continues and the call still returns a winner. -/
theorem cross_check_reference_and_escalation (crash : Bool)
    (pre mid post : List (AlgorithmDesc × TrialOutcome))
    (a1 a2 : AlgorithmDesc) (t1 t2 : TrialOutcome) (instr : ConvCustomCall)
    (hpre : ∀ q ∈ pre, validTrial q.2 = false)
    (hmid : ∀ q ∈ mid, validTrial q.2 = false)
    (h1v : validTrial t1 = true) (h1c : t1.comp_create_ok = true)
    (h2v : validTrial t2 = true)
    (h2bad : t2.compare_eq = CompareOutcome.compareError
      ∨ t2.compare_eq = CompareOutcome.unequal) :
    (crash = true →
      pickBestAlgorithm PrimitiveType.F16 crash instr
          (pre ++ ((a1, t1) :: (mid ++ ((a2, t2) :: post))))
        = .error .checkFailed)
    ∧ (crash = false →
      (∃ r, pickBestAlgorithm PrimitiveType.F16 crash instr
          (pre ++ ((a1, t1) :: (mid ++ ((a2, t2) :: post)))) = .ok r)
      ∧ (∃ st, runTrials true false { best := none, comparator := none }
            (pre ++ ((a1, t1) :: (mid ++ ((a2, t2) :: post)))) = .ok st
          ∧ st.comparator = some a1)) := by
  have hdec : decide (PrimitiveType.F16 = PrimitiveType.F16) = true := rfl
  have hstep1 : ∀ cr : Bool,
      trialStep true cr { best := none, comparator := none } (a1, t1)
        = .ok { best := some (a1, t1.elapsed_time_in_ms, t1.scratch_bytes),
                comparator := some a1 } := by
    intro cr
    unfold trialStep checkStep bestUpdate
    simp [h1v, h1c]
  constructor
  · intro hcr
    subst hcr
    have hstep2e : trialStep true true
        { best := some (a1, t1.elapsed_time_in_ms, t1.scratch_bytes),
          comparator := some a1 } (a2, t2) = .error .checkFailed := by
      unfold trialStep checkStep
      rcases h2bad with h | h <;> simp [h2v, h]
    have hL : runTrials true true { best := none, comparator := none }
        (pre ++ ((a1, t1) :: (mid ++ ((a2, t2) :: post)))) = .error .checkFailed := by
      rw [runTrials_skip_invalid true true _ pre _ hpre,
        runTrials_cons_ok true true _ _ _ _ (hstep1 true),
        runTrials_skip_invalid true true _ mid _ hmid,
        runTrials_cons_error true true _ _ _ _ hstep2e]
    unfold pickBestAlgorithm
    rw [hdec, hL]
  · intro hcr
    subst hcr
    have hstep2o : trialStep true false
        { best := some (a1, t1.elapsed_time_in_ms, t1.scratch_bytes),
          comparator := some a1 } (a2, t2)
        = .ok (bestUpdate (a2, t2)
            { best := some (a1, t1.elapsed_time_in_ms, t1.scratch_bytes),
              comparator := some a1 }) := by
      unfold trialStep checkStep
      rcases h2bad with h | h <;> simp [h2v, h]
    obtain ⟨stF, hF⟩ := runTrials_crash_false_ok true
      (bestUpdate (a2, t2)
        { best := some (a1, t1.elapsed_time_in_ms, t1.scratch_bytes),
          comparator := some a1 }) post
    have hL : runTrials true false { best := none, comparator := none }
        (pre ++ ((a1, t1) :: (mid ++ ((a2, t2) :: post)))) = .ok stF := by
      rw [runTrials_skip_invalid true false _ pre _ hpre,
        runTrials_cons_ok true false _ _ _ _ (hstep1 false),
        runTrials_skip_invalid true false _ mid _ hmid,
        runTrials_cons_ok true false _ _ _ _ hstep2o, hF]
    constructor
    · have hbestF : stF.best = bestFold (bestUpdate (a2, t2)
          { best := some (a1, t1.elapsed_time_in_ms, t1.scratch_bytes),
            comparator := some a1 }).best post :=
        runTrials_ok_best _ _ _ _ _ hF
      have hupd : ∃ x, (bestUpdate (a2, t2)
          { best := some (a1, t1.elapsed_time_in_ms, t1.scratch_bytes),
            comparator := some a1 }).best = some x := by
        unfold bestUpdate
        by_cases ht : t2.elapsed_time_in_ms < t1.elapsed_time_in_ms <;>
          simp [ht]
      obtain ⟨x, hx⟩ := hupd
      rw [hx] at hbestF
      obtain ⟨y, hy⟩ := bestFold_some_isSome x post
      rw [hy] at hbestF
      refine ⟨(y.1.algo_id, y.1.tensor_ops_enabled, y.2.2), ?_⟩
      unfold pickBestAlgorithm
      rw [hdec, hL]
      show (match stF.best with
            | some (alg, _, bytes_used) =>
              (Except.ok (alg.algo_id, alg.tensor_ops_enabled, bytes_used) :
                Except PickError (Int × Bool × Int))
            | none => .error (.allFailed instr)) = _
      rw [hbestF]
    · refine ⟨stF, hL, ?_⟩
      have hcomp2 : (bestUpdate (a2, t2)
          { best := some (a1, t1.elapsed_time_in_ms, t1.scratch_bytes),
            comparator := some a1 }).comparator = some a1 := by
        rw [bestUpdate_comparator]
      exact runTrials_comparator_some true false _ stF post a1 hcomp2 hF

/-- Witness for C5 with concrete trials (crash flag set, a valid reference
trial, then a valid trial whose comparison reports a mismatch). -/
theorem cross_check_reference_and_escalation_witness :
    (true = true →
      pickBestAlgorithm PrimitiveType.F16 true
          { call_target := .convForward,
            operand0_shape := .arr .F16 [1], operand1_shape := .arr .F16 [1],
            shape := .tuple2 (.arr .F16 [1]) (.arr .U8 [0]),
            window := ⟨0⟩,
            convolution_dimension_numbers :=
              { input_batch_dimension := 0, input_feature_dimension := 1,
                input_spatial_dimensions := [2, 3],
                output_feature_dimension := 1 },
            backend_config := none }
          ([] ++ (((⟨0, false⟩ : AlgorithmDesc),
              (⟨true, true, 10, 0, true, .equal⟩ : TrialOutcome)) :: ([]
            ++ (((⟨1, false⟩ : AlgorithmDesc),
              (⟨true, true, 5, 0, true, .unequal⟩ : TrialOutcome)) :: []))))
        = .error .checkFailed)
    ∧ (true = false →
      (∃ r, pickBestAlgorithm PrimitiveType.F16 true
          { call_target := .convForward,
            operand0_shape := .arr .F16 [1], operand1_shape := .arr .F16 [1],
            shape := .tuple2 (.arr .F16 [1]) (.arr .U8 [0]),
            window := ⟨0⟩,
            convolution_dimension_numbers :=
              { input_batch_dimension := 0, input_feature_dimension := 1,
                input_spatial_dimensions := [2, 3],
                output_feature_dimension := 1 },
            backend_config := none }
          ([] ++ (((⟨0, false⟩ : AlgorithmDesc),
              (⟨true, true, 10, 0, true, .equal⟩ : TrialOutcome)) :: ([]
            ++ (((⟨1, false⟩ : AlgorithmDesc),
              (⟨true, true, 5, 0, true, .unequal⟩ : TrialOutcome)) :: []))))
          = .ok r)
      ∧ (∃ st, runTrials true false { best := none, comparator := none }
            ([] ++ (((⟨0, false⟩ : AlgorithmDesc),
                (⟨true, true, 10, 0, true, .equal⟩ : TrialOutcome)) :: ([]
              ++ (((⟨1, false⟩ : AlgorithmDesc),
                (⟨true, true, 5, 0, true, .unequal⟩ : TrialOutcome)) :: []))))
            = .ok st
          ∧ st.comparator = some ⟨0, false⟩)) :=
  cross_check_reference_and_escalation true [] [] []
    ⟨0, false⟩ ⟨1, false⟩
    ⟨true, true, 10, 0, true, .equal⟩
    ⟨true, true, 5, 0, true, .unequal⟩
    { call_target := .convForward,
      operand0_shape := .arr .F16 [1], operand1_shape := .arr .F16 [1],
      shape := .tuple2 (.arr .F16 [1]) (.arr .U8 [0]),
      window := ⟨0⟩,
      convolution_dimension_numbers :=
        { input_batch_dimension := 0, input_feature_dimension := 1,
          input_spatial_dimensions := [2, 3],
          output_feature_dimension := 1 },
      backend_config := none }
    (by simp) (by simp) rfl rfl rfl (Or.inr rfl)

end XlaGpu
